import Mathlib

/-
Verification of the in-memory rate limiter of the busysailing-api backend
(src rateLimiter module: class RateLimiter with checkLimit and cleanup).
The JavaScript Map from identifier strings to entries is embedded as a
function String → Option RateLimitEntry; Date.now() timestamps and counts
are natural numbers (millisecond instants and request counts are
nonnegative integers in the source).
-/

set_option maxHeartbeats 1000000

/-- One entry of the limiter map: `count` admitted requests in the current
window and `resetTime`, the instant (ms) at which the window ends.
Mirrors `interface RateLimitEntry`. -/
structure RateLimitEntry where
  count : Nat
  resetTime : Nat
deriving DecidableEq, Repr

/-- Return value of `checkLimit`: `\x7b allowed: boolean; resetTime?: number \x7d`.
The optional `resetTime` is present exactly on the denial branch. -/
structure CheckResult where
  allowed : Bool
  resetTime : Option Nat
deriving DecidableEq, Repr

/-- The limiter: configuration fixed at construction plus the mutable map
`requests`. Mirrors `class RateLimiter`. -/
structure RateLimiter where
  maxRequests : Nat
  windowMs : Nat
  requests : String → Option RateLimitEntry

/-- `constructor(maxRequests = 20, windowMinutes = 1)`: stores the bound,
converts minutes to milliseconds, starts with an empty map. -/
def mkRateLimiter (maxRequests : Nat) (windowMinutes : Nat) : RateLimiter :=
  { maxRequests := maxRequests
    windowMs := windowMinutes * 60 * 1000
    requests := fun _ => none }

/-- `this.requests.set(key, value)`: point update of the map. -/
def RateLimiter.set (rl : RateLimiter) (key : String) (v : RateLimitEntry) :
    RateLimiter :=
  { rl with requests := fun k => if k = key then some v else rl.requests k }

/-- `private cleanup()`: iterate over the entries and delete every entry
whose `resetTime < now` (strict comparison in the source). -/
def RateLimiter.cleanup (rl : RateLimiter) (now : Nat) : RateLimiter :=
  { rl with
    requests := fun k =>
      match rl.requests k with
      | some entry => if entry.resetTime < now then none else some entry
      | none => none }

/-- `public checkLimit(identifier)`: read `now` once; if there is no entry
or the entry has `resetTime < now`, install a fresh entry with count 1 and
resetTime `now + windowMs` and allow; else if `count >= maxRequests`, deny
carrying the entry resetTime; else increment `count` and allow. Returns the
decision together with the post-state. -/
def RateLimiter.checkLimit (rl : RateLimiter) (identifier : String) (now : Nat) :
    CheckResult × RateLimiter :=
  match rl.requests identifier with
  | none =>
      ({ allowed := true, resetTime := none },
        rl.set identifier { count := 1, resetTime := now + rl.windowMs })
  | some entry =>
      if entry.resetTime < now then
        ({ allowed := true, resetTime := none },
          rl.set identifier { count := 1, resetTime := now + rl.windowMs })
      else if rl.maxRequests ≤ entry.count then
        ({ allowed := false, resetTime := some entry.resetTime }, rl)
      else
        ({ allowed := true, resetTime := none },
          rl.set identifier { count := entry.count + 1, resetTime := entry.resetTime })

/-- Run a sequence of `checkLimit` calls for one identifier at the given
list of call times, collecting the decisions and threading the state. -/
def runCalls (rl : RateLimiter) (identifier : String) (times : List Nat) :
    List CheckResult × RateLimiter :=
  match times with
  | [] => ([], rl)
  | t :: ts =>
      let step := rl.checkLimit identifier t
      let rest := runCalls step.2 identifier ts
      (step.1 :: rest.1, rest.2)

/-- States reachable from a freshly constructed limiter by any sequence of
`checkLimit` and `cleanup` operations. -/
inductive Reachable : RateLimiter → Prop where
  | init (maxRequests windowMinutes : Nat) :
      Reachable (mkRateLimiter maxRequests windowMinutes)
  | step_check (rl : RateLimiter) (id : String) (now : Nat) :
      Reachable rl → Reachable (rl.checkLimit id now).2
  | step_cleanup (rl : RateLimiter) (now : Nat) :
      Reachable rl → Reachable (rl.cleanup now)

/-- A concrete state used by witnesses: bound 2, window 60000 ms, a single
entry for client "c" with one admitted request and resetTime 10. -/
def sampleRL : RateLimiter :=
  { maxRequests := 2
    windowMs := 60000
    requests := fun k => if k = "c" then some { count := 1, resetTime := 10 } else none }

/-- A concrete state whose entry for "c" is at the admission bound. -/
def fullRL : RateLimiter :=
  { maxRequests := 2
    windowMs := 60000
    requests := fun k => if k = "c" then some { count := 2, resetTime := 10 } else none }

@[simp] theorem set_maxRequests (rl : RateLimiter) (key : String) (v : RateLimitEntry) :
    (rl.set key v).maxRequests = rl.maxRequests := rfl

@[simp] theorem set_windowMs (rl : RateLimiter) (key : String) (v : RateLimitEntry) :
    (rl.set key v).windowMs = rl.windowMs := rfl

@[simp] theorem set_requests_self (rl : RateLimiter) (key : String) (v : RateLimitEntry) :
    (rl.set key v).requests key = some v := by
  simp [RateLimiter.set]

theorem set_requests_ne (rl : RateLimiter) (key k : String) (v : RateLimitEntry)
    (h : k ≠ key) : (rl.set key v).requests k = rl.requests k := by
  simp [RateLimiter.set, h]

@[simp] theorem cleanup_maxRequests (rl : RateLimiter) (now : Nat) :
    (rl.cleanup now).maxRequests = rl.maxRequests := rfl

@[simp] theorem cleanup_windowMs (rl : RateLimiter) (now : Nat) :
    (rl.cleanup now).windowMs = rl.windowMs := rfl

/-- Case analysis of `checkLimit`: exactly one of the four source branches
applies, and in each the returned decision and post-state are as written in
the source. -/
theorem checkLimit_spec (rl : RateLimiter) (c : String) (now : Nat) :
    (rl.requests c = none ∧
      rl.checkLimit c now =
        ({ allowed := true, resetTime := none },
          rl.set c { count := 1, resetTime := now + rl.windowMs })) ∨
    (∃ e, rl.requests c = some e ∧ e.resetTime < now ∧
      rl.checkLimit c now =
        ({ allowed := true, resetTime := none },
          rl.set c { count := 1, resetTime := now + rl.windowMs })) ∨
    (∃ e, rl.requests c = some e ∧ ¬ e.resetTime < now ∧ rl.maxRequests ≤ e.count ∧
      rl.checkLimit c now = ({ allowed := false, resetTime := some e.resetTime }, rl)) ∨
    (∃ e, rl.requests c = some e ∧ ¬ e.resetTime < now ∧ e.count < rl.maxRequests ∧
      rl.checkLimit c now =
        ({ allowed := true, resetTime := none },
          rl.set c { count := e.count + 1, resetTime := e.resetTime })) := by
  rcases hm : rl.requests c with _ | e
  · exact Or.inl ⟨rfl, by unfold RateLimiter.checkLimit; rw [hm]⟩
  · by_cases h1 : e.resetTime < now
    · exact Or.inr (Or.inl ⟨e, rfl, h1, by unfold RateLimiter.checkLimit; rw [hm]; simp [h1]⟩)
    · by_cases h2 : rl.maxRequests ≤ e.count
      · exact Or.inr (Or.inr (Or.inl ⟨e, rfl, h1, h2,
          by unfold RateLimiter.checkLimit; rw [hm]; simp [h1, h2]⟩))
      · exact Or.inr (Or.inr (Or.inr ⟨e, rfl, h1, Nat.not_le.mp h2,
          by unfold RateLimiter.checkLimit; rw [hm]; simp [h1, h2]⟩))

theorem checkLimit_maxRequests (rl : RateLimiter) (c : String) (now : Nat) :
    ((rl.checkLimit c now).2).maxRequests = rl.maxRequests := by
  rcases checkLimit_spec rl c now with ⟨_, h⟩ | ⟨e, _, _, h⟩ | ⟨e, _, _, _, h⟩ | ⟨e, _, _, _, h⟩ <;>
    rw [h] <;> simp

theorem checkLimit_windowMs (rl : RateLimiter) (c : String) (now : Nat) :
    ((rl.checkLimit c now).2).windowMs = rl.windowMs := by
  rcases checkLimit_spec rl c now with ⟨_, h⟩ | ⟨e, _, _, h⟩ | ⟨e, _, _, _, h⟩ | ⟨e, _, _, _, h⟩ <;>
    rw [h] <;> simp

theorem cleanup_requests_sub (rl : RateLimiter) (now : Nat) (k : String)
    (e : RateLimitEntry) (h : (rl.cleanup now).requests k = some e) :
    rl.requests k = some e := by
  unfold RateLimiter.cleanup at h
  dsimp only at h
  rcases hm : rl.requests k with _ | e2 <;> rw [hm] at h
  · simp at h
  · simp at h
    rw [h.2]

/-- Claim C9: checkLimit is total over its input domain: for every identifier
string (the empty string and the caller's fallback string included), every
state and every time, it returns a decision that is either Allowed (with no
resetTime payload) or Denied carrying a resetTime; no input raises an error. -/
theorem c9_total_decision (rl : RateLimiter) (identifier : String) (now : Nat) :
    ((rl.checkLimit identifier now).1.allowed = true ∧
      (rl.checkLimit identifier now).1.resetTime = none) ∨
    ((rl.checkLimit identifier now).1.allowed = false ∧
      ∃ rt, (rl.checkLimit identifier now).1.resetTime = some rt) := by
  rcases checkLimit_spec rl identifier now with ⟨_, h⟩ | ⟨e, _, _, h⟩ | ⟨e, _, _, _, h⟩ |
    ⟨e, _, _, _, h⟩ <;> rw [h] <;> simp

/-- Claim C3: if an entry exists for the identifier, is not expired at the
current time, and its count has reached maxRequests, then checkLimit returns
the Denied outcome value carrying that entry's resetTime (an ordinary return
value, not a raised failure) and leaves the limiter state exactly unchanged. -/
theorem c3_denied_carries_resetTime_state_unchanged
    (rl : RateLimiter) (c : String) (now : Nat) (e : RateLimitEntry)
    (he : rl.requests c = some e) (hlive : ¬ e.resetTime < now)
    (hfull : rl.maxRequests ≤ e.count) :
    rl.checkLimit c now = ({ allowed := false, resetTime := some e.resetTime }, rl) := by
  unfold RateLimiter.checkLimit
  rw [he]
  simp [hlive, hfull]

/-- Witness for C3 at a concrete full entry. -/
theorem c3_witness :
    fullRL.checkLimit "c" 5 = ({ allowed := false, resetTime := some 10 }, fullRL) :=
  c3_denied_carries_resetTime_state_unchanged fullRL "c" 5 { count := 2, resetTime := 10 }
    (by decide) (by decide) (by decide)

/-- Claim C10: on the increment branch (entry present, not expired, count
below maxRequests) checkLimit allows the request, bumps the count by one and
leaves resetTime unchanged: the window end stays fixed at first-admission
time plus the window duration and never slides forward. -/
theorem c10_increment_preserves_resetTime
    (rl : RateLimiter) (c : String) (now : Nat) (e : RateLimitEntry)
    (he : rl.requests c = some e) (hlive : ¬ e.resetTime < now)
    (hroom : e.count < rl.maxRequests) :
    (rl.checkLimit c now).1 = { allowed := true, resetTime := none } ∧
    ((rl.checkLimit c now).2).requests c =
      some { count := e.count + 1, resetTime := e.resetTime } := by
  unfold RateLimiter.checkLimit
  rw [he]
  simp [hlive, Nat.not_le.mpr hroom]

/-- Witness for C10 at a concrete half-full entry. -/
theorem c10_witness :
    (sampleRL.checkLimit "c" 5).1 = { allowed := true, resetTime := none } ∧
    ((sampleRL.checkLimit "c" 5).2).requests "c" = some { count := 2, resetTime := 10 } :=
  c10_increment_preserves_resetTime sampleRL "c" 5 { count := 1, resetTime := 10 }
    (by decide) (by decide) (by decide)

/-- Claim C5: a checkLimit call for client c leaves the stored entry of every
other identifier k exactly as it was: same presence, same count, same
resetTime. -/
theorem c5_distinct_clients_frame (rl : RateLimiter) (c k : String) (now : Nat)
    (hne : k ≠ c) :
    ((rl.checkLimit c now).2).requests k = rl.requests k := by
  rcases checkLimit_spec rl c now with ⟨_, h⟩ | ⟨e, _, _, h⟩ | ⟨e, _, _, _, h⟩ |
    ⟨e, _, _, _, h⟩ <;> rw [h] <;> simp [RateLimiter.set, hne]

/-- Witness for C5 at concrete distinct identifiers. -/
theorem c5_witness :
    ((sampleRL.checkLimit "c" 5).2).requests "k" = sampleRL.requests "k" :=
  c5_distinct_clients_frame sampleRL "c" "k" 5 (by decide)

/-- Claim C2 counterexample: in `sampleRL` the entry for "c" has resetTime 10,
which is at or before the current time 10, yet checkLimit does not install a
fresh entry with count 1 and resetTime now + windowMs: the source compares
with strict less-than, treats the entry as live and increments its count. -/
theorem c2_counterexample :
    sampleRL.requests "c" = some { count := 1, resetTime := 10 } ∧
    (10 : Nat) ≤ 10 ∧
    ((sampleRL.checkLimit "c" 10).2).requests "c" = some { count := 2, resetTime := 10 } ∧
    ((sampleRL.checkLimit "c" 10).2).requests "c" ≠
      some { count := 1, resetTime := 10 + sampleRL.windowMs } := by
  refine ⟨by decide, by decide, by decide, by decide⟩

/-- Claim C2 amended: if no entry exists for the identifier, or the existing
entry's resetTime is strictly before the current time, then checkLimit
installs a fresh entry with count 1 and resetTime now + windowMs and returns
Allowed. -/
theorem c2_fresh_window_on_strict_expiry (rl : RateLimiter) (c : String) (now : Nat)
    (h : ∀ e, rl.requests c = some e → e.resetTime < now) :
    (rl.checkLimit c now).1 = { allowed := true, resetTime := none } ∧
    ((rl.checkLimit c now).2).requests c =
      some { count := 1, resetTime := now + rl.windowMs } := by
  rcases hm : rl.requests c with _ | e
  · unfold RateLimiter.checkLimit
    rw [hm]
    simp
  · have hexp := h e hm
    unfold RateLimiter.checkLimit
    rw [hm]
    simp [hexp]

/-- Witness for the amended C2 on an empty limiter. -/
theorem c2_witness :
    ((mkRateLimiter 2 1).checkLimit "c" 0).1 = { allowed := true, resetTime := none } ∧
    (((mkRateLimiter 2 1).checkLimit "c" 0).2).requests "c" =
      some { count := 1, resetTime := 0 + (mkRateLimiter 2 1).windowMs } :=
  c2_fresh_window_on_strict_expiry (mkRateLimiter 2 1) "c" 0
    (fun e he => by simp [mkRateLimiter] at he)

/-- Claim C6 counterexample: in `sampleRL` the entry for "c" has resetTime 10,
at or before the scan time 10, yet cleanup keeps it untouched: the source
deletes only entries with resetTime strictly before the scan time. -/
theorem c6_counterexample :
    sampleRL.requests "c" = some { count := 1, resetTime := 10 } ∧
    (10 : Nat) ≤ 10 ∧
    (sampleRL.cleanup 10).requests "c" = some { count := 1, resetTime := 10 } := by
  refine ⟨by decide, by decide, by decide⟩

/-- Claim C6 amended: cleanup at scan time now deletes exactly the entries
whose resetTime is strictly before now: the entry for a key is erased iff it
was absent or strictly expired, and every entry with resetTime at or after
now is kept with count and resetTime unmodified. -/
theorem c6_cleanup_deletes_strictly_expired (rl : RateLimiter) (now : Nat) (k : String) :
    ((rl.cleanup now).requests k = none ↔
      rl.requests k = none ∨ ∃ e, rl.requests k = some e ∧ e.resetTime < now) ∧
    (∀ e, rl.requests k = some e → ¬ e.resetTime < now →
      (rl.cleanup now).requests k = some e) := by
  unfold RateLimiter.cleanup
  dsimp only
  rcases hm : rl.requests k with _ | e2
  · simp
  · by_cases hlt : e2.resetTime < now <;> simp [hlt]

/-- Witness for the amended C6 at a concrete state and scan time. -/
theorem c6_witness :
    ((sampleRL.cleanup 5).requests "c" = none ↔
      sampleRL.requests "c" = none ∨
        ∃ e, sampleRL.requests "c" = some e ∧ e.resetTime < 5) ∧
    (∀ e, sampleRL.requests "c" = some e → ¬ e.resetTime < 5 →
      (sampleRL.cleanup 5).requests "c" = some e) :=
  c6_cleanup_deletes_strictly_expired sampleRL 5 "c"

/-- Helper for C4: one checkLimit step preserves the count-range invariant. -/
theorem checkLimit_preserves_counts (rl : RateLimiter) (c : String) (now : Nat)
    (hmax : 1 ≤ rl.maxRequests)
    (hinv : ∀ k e, rl.requests k = some e → 1 ≤ e.count ∧ e.count ≤ rl.maxRequests) :
    ∀ k e, ((rl.checkLimit c now).2).requests k = some e →
      1 ≤ e.count ∧ e.count ≤ rl.maxRequests := by
  intro k e hk
  rcases checkLimit_spec rl c now with ⟨hm, h⟩ | ⟨e2, hm, h1, h⟩ | ⟨e2, hm, h1, h2, h⟩ |
    ⟨e2, hm, h1, h2, h⟩ <;> rw [h] at hk
  · by_cases hkc : k = c
    · subst hkc
      rw [set_requests_self] at hk
      cases hk
      exact ⟨Nat.le_refl 1, hmax⟩
    · exact hinv k e (by rwa [set_requests_ne rl c k _ hkc] at hk)
  · by_cases hkc : k = c
    · subst hkc
      rw [set_requests_self] at hk
      cases hk
      exact ⟨Nat.le_refl 1, hmax⟩
    · exact hinv k e (by rwa [set_requests_ne rl c k _ hkc] at hk)
  · exact hinv k e hk
  · by_cases hkc : k = c
    · subst hkc
      rw [set_requests_self] at hk
      cases hk
      have h0 := (hinv k e2 hm).1
      constructor
      · show 1 ≤ e2.count + 1
        omega
      · show e2.count + 1 ≤ rl.maxRequests
        omega
    · exact hinv k e (by rwa [set_requests_ne rl c k _ hkc] at hk)

/-- Helper for C4: the count-range invariant holds in every reachable state. -/
theorem reachable_counts (rl : RateLimiter) (h : Reachable rl) :
    1 ≤ rl.maxRequests →
    ∀ k e, rl.requests k = some e → 1 ≤ e.count ∧ e.count ≤ rl.maxRequests := by
  induction h with
  | init m w =>
      intro _ k e hk
      simp [mkRateLimiter] at hk
  | step_check rl c now hr ih =>
      intro hmax k e hk
      rw [checkLimit_maxRequests] at hmax
      have step := checkLimit_preserves_counts rl c now hmax (ih hmax) k e hk
      rwa [checkLimit_maxRequests]
  | step_cleanup rl now hr ih =>
      intro hmax k e hk
      rw [cleanup_maxRequests] at hmax
      have := ih hmax k e (cleanup_requests_sub rl now k e hk)
      rwa [cleanup_maxRequests]

/-- Claim C4: for a limiter with maxRequests at least 1, in every state
reachable by any sequence of checkLimit and cleanup operations every stored
entry has count between 1 and maxRequests; and an entry whose count equals
maxRequests makes checkLimit deny its identifier at every time at or before
its resetTime (until the resetTime passes). -/
theorem c4_count_invariant_and_denial (rl : RateLimiter) (h : Reachable rl)
    (hmax : 1 ≤ rl.maxRequests) :
    (∀ k e, rl.requests k = some e → 1 ≤ e.count ∧ e.count ≤ rl.maxRequests) ∧
    (∀ k e now, rl.requests k = some e → e.count = rl.maxRequests →
      ¬ e.resetTime < now → ((rl.checkLimit k now).1).allowed = false) := by
  constructor
  · exact reachable_counts rl h hmax
  · intro k e now hk hcount hlive
    unfold RateLimiter.checkLimit
    rw [hk]
    simp [hlive, Nat.le_of_eq hcount.symm]

/-- Witness for C4 on a state reached by one checkLimit step from a fresh
limiter. -/
theorem c4_witness :
    (∀ k e, (((mkRateLimiter 2 1).checkLimit "c" 0).2).requests k = some e →
      1 ≤ e.count ∧ e.count ≤ (((mkRateLimiter 2 1).checkLimit "c" 0).2).maxRequests) ∧
    (∀ k e now, (((mkRateLimiter 2 1).checkLimit "c" 0).2).requests k = some e →
      e.count = (((mkRateLimiter 2 1).checkLimit "c" 0).2).maxRequests →
      ¬ e.resetTime < now →
      (((((mkRateLimiter 2 1).checkLimit "c" 0).2).checkLimit k now).1).allowed = false) :=
  c4_count_invariant_and_denial (((mkRateLimiter 2 1)).checkLimit "c" 0).2
    (Reachable.step_check (mkRateLimiter 2 1) "c" 0 (Reachable.init 2 1)) (by decide)

/-- Claim C7: running cleanup at time t and then checkLimit for any client at
any time t2 at or after t yields the same decision and the same resulting
entry for that client as running checkLimit alone: eager reclamation never
changes admission behavior over lazy expiry. -/
theorem c7_cleanup_preserves_checkLimit (rl : RateLimiter) (t t2 : Nat) (c : String)
    (h : t ≤ t2) :
    ((rl.cleanup t).checkLimit c t2).1 = (rl.checkLimit c t2).1 ∧
    (((rl.cleanup t).checkLimit c t2).2).requests c =
      ((rl.checkLimit c t2).2).requests c := by
  rcases hm : rl.requests c with _ | e
  · have hclean : (rl.cleanup t).requests c = none := by
      unfold RateLimiter.cleanup
      dsimp only
      rw [hm]
    unfold RateLimiter.checkLimit
    rw [hm, hclean]
    simp
  · by_cases hexp : e.resetTime < t
    · have hclean : (rl.cleanup t).requests c = none := by
        unfold RateLimiter.cleanup
        dsimp only
        rw [hm]
        simp [hexp]
      have hexp2 : e.resetTime < t2 := Nat.lt_of_lt_of_le hexp h
      unfold RateLimiter.checkLimit
      rw [hm, hclean]
      simp [hexp2]
    · have hclean : (rl.cleanup t).requests c = some e := by
        unfold RateLimiter.cleanup
        dsimp only
        rw [hm]
        simp [hexp]
      unfold RateLimiter.checkLimit
      rw [hm, hclean]
      by_cases h1 : e.resetTime < t2
      · simp [h1]
      · by_cases h2 : rl.maxRequests ≤ e.count
        · simp [h1, h2, hclean, hm]
        · simp [h1, h2]

/-- Witness for C7: cleanup at 20 removes the expired sample entry, and the
later call at 25 behaves identically with or without that cleanup. -/
theorem c7_witness :
    ((sampleRL.cleanup 20).checkLimit "c" 25).1 = (sampleRL.checkLimit "c" 25).1 ∧
    (((sampleRL.cleanup 20).checkLimit "c" 25).2).requests "c" =
      ((sampleRL.checkLimit "c" 25).2).requests "c" :=
  c7_cleanup_preserves_checkLimit sampleRL 20 25 "c" (by decide)

/-- Helper for C1: running calls over a concatenation composes. -/
theorem runCalls_append (rl : RateLimiter) (c : String) (l1 l2 : List Nat) :
    runCalls rl c (l1 ++ l2) =
      ((runCalls rl c l1).1 ++ (runCalls (runCalls rl c l1).2 c l2).1,
        (runCalls (runCalls rl c l1).2 c l2).2) := by
  induction l1 generalizing rl with
  | nil => simp [runCalls]
  | cons t ts ih => simp [runCalls, ih]

/-- Helper for C1: from a live entry with k admitted requests, a run of calls
all at or before the entry's resetTime and fitting under the bound is fully
allowed, adds its length to the count and leaves resetTime and the
configuration unchanged. -/
theorem runCalls_window (c : String) (R N : Nat) (ts : List Nat) :
    ∀ (rl : RateLimiter) (k : Nat), rl.maxRequests = N →
      rl.requests c = some { count := k, resetTime := R } →
      (∀ t ∈ ts, t ≤ R) → k + ts.length ≤ N →
      (runCalls rl c ts).1 =
        List.replicate ts.length { allowed := true, resetTime := none } ∧
      (runCalls rl c ts).2.requests c = some { count := k + ts.length, resetTime := R } ∧
      (runCalls rl c ts).2.maxRequests = N ∧
      (runCalls rl c ts).2.windowMs = rl.windowMs := by
  induction ts with
  | nil =>
      intro rl k hmax hentry _ _
      exact ⟨rfl, hentry, hmax, rfl⟩
  | cons t ts ih =>
      intro rl k hmax hentry hts hk
      have hlive : ¬ (R < t) := Nat.not_lt.mpr (hts t (List.mem_cons_self t ts))
      have hroom : k < N := by
        have := hk
        simp at this
        omega
      have hstep : rl.checkLimit c t =
          ({ allowed := true, resetTime := none },
            rl.set c { count := k + 1, resetTime := R }) := by
        unfold RateLimiter.checkLimit
        rw [hentry]
        simp [hlive, hmax, Nat.not_le.mpr hroom]
      obtain ⟨ih1, ih2, ih3, ih4⟩ := ih (rl.set c { count := k + 1, resetTime := R }) (k + 1)
        (by simp [hmax]) (set_requests_self rl c _)
        (fun t2 ht2 => hts t2 (List.mem_cons_of_mem t ht2)) (by simp at hk; omega)
      refine ⟨?_, ?_, ?_, ?_⟩
      · simp [runCalls, hstep, ih1, List.replicate_succ]
      · simp only [runCalls, hstep]
        rw [ih2]
        have : k + 1 + ts.length = k + (ts.length + 1) := by omega
        rw [this]
        simp
      · simp only [runCalls, hstep]
        exact ih3
      · simp only [runCalls, hstep]
        rw [ih4]
        simp

/-- Claim C1: for a limiter with maxRequests = N (N at least 1) and a client
with no live entry, a sequence of N+1 checkLimit calls for that client, all
made before the window's resetTime (first-call time plus windowMs), has the
first N calls return Allowed and the final call return Denied carrying that
resetTime. -/
theorem c1_first_maxRequests_allowed_then_denied
    (rl : RateLimiter) (c : String) (N t1 : Nat) (ts : List Nat)
    (hN : 1 ≤ N) (hmax : rl.maxRequests = N) (hlen : ts.length = N)
    (hnolive : ∀ e, rl.requests c = some e → e.resetTime < t1)
    (hwin : ∀ t ∈ ts, t < t1 + rl.windowMs) :
    (runCalls rl c (t1 :: ts)).1 =
      List.replicate N { allowed := true, resetTime := none } ++
        [{ allowed := false, resetTime := some (t1 + rl.windowMs) }] := by
  have hstep : rl.checkLimit c t1 =
      ({ allowed := true, resetTime := none },
        rl.set c { count := 1, resetTime := t1 + rl.windowMs }) := by
    rcases hm : rl.requests c with _ | e
    · unfold RateLimiter.checkLimit
      rw [hm]
    · have hexp := hnolive e hm
      unfold RateLimiter.checkLimit
      rw [hm]
      simp [hexp]
  have hne : ts ≠ [] := by
    intro h0
    rw [h0] at hlen
    simp at hlen
    omega
  obtain ⟨l, a, hts⟩ : ∃ l a, ts = l ++ [a] :=
    ⟨ts.dropLast, ts.getLast hne, (List.dropLast_append_getLast hne).symm⟩
  subst hts
  have hlenl : l.length + 1 = N := by simpa using hlen
  obtain ⟨h1, h2, h3, h4⟩ := runCalls_window c (t1 + rl.windowMs) N l
    (rl.set c { count := 1, resetTime := t1 + rl.windowMs }) 1
    (by simp [hmax])
    (set_requests_self rl c _)
    (fun t ht => Nat.le_of_lt (hwin t (List.mem_append_left _ ht)))
    (by omega)
  have ha : ¬ (t1 + rl.windowMs < a) :=
    Nat.not_lt.mpr (Nat.le_of_lt (hwin a (by simp)))
  have hlast :
      (runCalls (rl.set c { count := 1, resetTime := t1 + rl.windowMs }) c l).2.checkLimit c a =
        ({ allowed := false, resetTime := some (t1 + rl.windowMs) },
          (runCalls (rl.set c { count := 1, resetTime := t1 + rl.windowMs }) c l).2) := by
    unfold RateLimiter.checkLimit
    rw [h2]
    simp [ha, h3, show N ≤ 1 + l.length by omega]
  simp only [runCalls, hstep, runCalls_append, h1, hlast]
  rw [← hlenl]
  simp [List.replicate_succ]

/-- Witness for C1: bound 2, three calls at times 0, 1, 2 inside the window:
the first two are allowed and the third is denied with the window end. -/
theorem c1_witness :
    (runCalls (mkRateLimiter 2 1) "c" (0 :: [1, 2])).1 =
      List.replicate 2 { allowed := true, resetTime := none } ++
        [{ allowed := false, resetTime := some (0 + (mkRateLimiter 2 1).windowMs) }] :=
  c1_first_maxRequests_allowed_then_denied (mkRateLimiter 2 1) "c" 2 0 [1, 2]
    (by decide) rfl rfl (fun e he => by simp [mkRateLimiter] at he) (by decide)
